import Mathlib

/-!
Verification of the DatasetManagement repository (dataset_manager.py).

The program is a small dataset lifecycle manager: per-dataset profiles with
clean / download / extract / process phases acting on a fixed directory
layout, plus a dispatcher.  We embed the filesystem as a set of directories
and a map from paths to opaque file contents, and every Python statement as
a state transformer that can raise an exception.  Randomness drawn by
sklearn.model_selection.train_test_split (the code passes no random_state)
and the effect of the external aws subprocess are explicit parameters.
-/

namespace DatasetManagement

/-- A filesystem path, as its list of components below the root. -/
abbrev Path := List String

/-- File contents are opaque bytes; we index them by a natural number. -/
abbrev Content := Nat

/-- The final component of a path (pathlib `p.name`). -/
def Path.name (p : Path) : String := p.getLastD ""

/-- The path without its final component (pathlib `p.parent`). -/
def Path.parent (p : Path) : Path := p.dropLast

/-- Whether `q` is directly inside the directory `p`. -/
def Path.isChildOf (q p : Path) : Bool := q ≠ [] && Path.parent q == p

/-- Whether `q` lies strictly below the directory `p`. -/
def Path.isUnder (q p : Path) : Bool := p ≠ q && p.isPrefixOf q

/-- The proper ancestors of `p` other than the filesystem root, shortest
first: for `[a, b, c]` this is `[[a], [a, b]]`. -/
def Path.ancestors (p : Path) : List Path :=
  ((List.range p.length).drop 1).map (fun k => p.take k)

/-- `p.as_posix()` for an absolute path. -/
def Path.asPosix (p : Path) : String := "/" ++ String.intercalate "/" p

/-- Python `s.endswith(suffix)`, computed on the character list. -/
def strEndsWith (s suffix : String) : Bool := suffix.data.isSuffixOf s.data

/-- Helper for Python `str.replace` on character lists.  The fuel argument
makes the recursion structural; call sites pass the list length, which
bounds the number of steps since every step consumes at least one
character (the patterns used are never empty). -/
def replaceFuel : Nat → List Char → List Char → List Char → List Char
  | 0, l, _, _ => l
  | _ + 1, [], _, _ => []
  | fuel + 1, c :: rest, pat, rep =>
    if pat ≠ [] && pat.isPrefixOf (c :: rest) then
      rep ++ replaceFuel fuel ((c :: rest).drop pat.length) pat rep
    else c :: replaceFuel fuel rest pat rep

/-- Python `s.replace(pat, rep)`: every non-overlapping occurrence,
scanning left to right. -/
def strReplace (s pat rep : String) : String :=
  ⟨replaceFuel s.data.length s.data pat.data rep.data⟩

/-- Python `s[n:]` on a string. -/
def strDrop (s : String) (n : Nat) : String := ⟨s.data.drop n⟩

/-- The filesystem: the set of existing directories and the existing files
with their contents, both kept as lists.  In the states the program builds
the lists hold no duplicate paths; `iterdir` enumerates children in list
order, standing for the unspecified order the OS reports entries in. -/
structure FS where
  dirs : List Path
  files : List (Path × Content)
deriving DecidableEq, Repr

/-- The Python exceptions this program can raise. -/
inductive PyErr where
  | fileNotFoundError
  | fileExistsError
  | notADirectoryError
  | isADirectoryError
  | notImplementedError (msg : String)
  | valueError (msg : String)
  | typeError (msg : String)
deriving DecidableEq, Repr

/-- Outcome of running a Python fragment: a value with the final
filesystem, or an uncaught exception with the filesystem at the point it
was raised (side effects performed before the raise are kept). -/
inductive PyResult (α : Type) where
  | ok (a : α) (fs : FS)
  | error (e : PyErr) (fs : FS)
deriving Repr

/-- The filesystem a run ends in, whether or not it raised. -/
def PyResult.finalFS : PyResult α → FS
  | .ok _ fs => fs
  | .error _ fs => fs

/-- Whether a run completed without raising. -/
def PyResult.isOk : PyResult α → Bool
  | .ok _ _ => true
  | .error _ _ => false

/-- The exception a run raised, if any. -/
def PyResult.errOf : PyResult α → Option PyErr
  | .ok _ _ => none
  | .error e _ => some e

/-- The value a run produced, or a default. -/
def PyResult.valueD : PyResult α → α → α
  | .ok a _, _ => a
  | .error _ _, d => d

/-- Shallow embedding of effectful Python code: a state transformer on the
filesystem that can raise. -/
def PyM (α : Type) := FS → PyResult α

instance : Monad PyM where
  pure a := fun fs => .ok a fs
  bind x f := fun fs =>
    match x fs with
    | .ok a fs1 => f a fs1
    | .error e fs1 => .error e fs1

/-- Raising an exception leaves the filesystem as it stands. -/
def PyM.raise (e : PyErr) : PyM α := fun fs => .error e fs

/-- Reading the current filesystem (no effect). -/
def PyM.getFS : PyM FS := fun fs => .ok fs fs

/-- Whether `p` exists as a directory; the filesystem root always does. -/
def FS.isDir (fs : FS) (p : Path) : Bool := p == [] || fs.dirs.contains p

/-- The content of file `p`, if a file is at `p`. -/
def FS.fileAt (fs : FS) (p : Path) : Option Content :=
  (fs.files.find? (fun qc => qc.1 == p)).map Prod.snd

/-- Whether `p` exists as a plain file. -/
def FS.isFile (fs : FS) (p : Path) : Bool := (fs.fileAt p).isSome

/-- Whether `p` exists at all. -/
def FS.existsPath (fs : FS) (p : Path) : Bool := fs.isDir p || fs.isFile p

/-- Adding a directory entry (no-op when already present). -/
def FS.addDir (fs : FS) (p : Path) : FS :=
  if fs.isDir p then fs else { fs with dirs := fs.dirs ++ [p] }

/-- The names of the files directly inside directory `p`, in list order. -/
def FS.filesIn (fs : FS) (p : Path) : List String :=
  (fs.files.map Prod.fst).filterMap
    (fun q => if Path.isChildOf q p then some (Path.name q) else none)

/-- The subdirectories directly inside directory `p`, in list order. -/
def FS.dirsIn (fs : FS) (p : Path) : List Path :=
  fs.dirs.filter (fun q => Path.isChildOf q p)

/-- `pathlib.Path.mkdir(parents=..., exist_ok=...)`.  With `parents` set,
missing ancestors are created and existing ones ignored; with `exist_ok`
set, an existing directory at the target is accepted.  A file at the
target raises FileExistsError even with `exist_ok`; a missing parent
without `parents` raises FileNotFoundError. -/
def mkdir (p : Path) (parents exist_ok : Bool) : PyM Unit := fun fs =>
  if fs.isFile p then .error .fileExistsError fs
  else if fs.isDir p then
    if exist_ok then .ok () fs else .error .fileExistsError fs
  else if parents then
    if (Path.ancestors p).any (fun q => fs.isFile q) then .error .notADirectoryError fs
    else .ok () (((Path.ancestors p).foldl FS.addDir fs).addDir p)
  else if fs.isDir (Path.parent p) then .ok () (fs.addDir p)
  else if fs.isFile (Path.parent p) then .error .notADirectoryError fs
  else .error .fileNotFoundError fs

/-- `shutil.rmtree(p)`: removes the directory `p` and everything below it;
raises NotADirectoryError on a plain file and FileNotFoundError when `p`
does not exist. -/
def rmtree (p : Path) : PyM Unit := fun fs =>
  if fs.isFile p then .error .notADirectoryError fs
  else if fs.dirs.contains p then
    .ok () { dirs := fs.dirs.filter (fun q => ! p.isPrefixOf q),
             files := fs.files.filter (fun qc => ! p.isPrefixOf qc.1) }
  else .error .fileNotFoundError fs

/-- `open(p, "wb")` followed by a full write: creates or overwrites the
file at `p`; raises when `p` is a directory or its parent is missing. -/
def writeFile (p : Path) (c : Content) : PyM Unit := fun fs =>
  if fs.isDir p then .error .isADirectoryError fs
  else if fs.isDir (Path.parent p) then
    .ok () { fs with files := fs.files.filter (fun qc => qc.1 != p) ++ [(p, c)] }
  else .error .fileNotFoundError fs

/-- `open(p, "rb")` followed by a full read. -/
def readFile (p : Path) : PyM Content := fun fs =>
  match fs.fileAt p with
  | some c => .ok c fs
  | none => if fs.isDir p then .error .isADirectoryError fs
            else .error .fileNotFoundError fs

/-- `shutil.copy2(src, dst)`: when `dst` is a directory the copy goes to
`dst/src.name`, otherwise to `dst` itself; file metadata is not modelled. -/
def copy2 (src dst : Path) : PyM Unit := do
  let c ← readFile src
  let fs ← PyM.getFS
  let target := if fs.isDir dst then dst ++ [Path.name src] else dst
  writeFile target c

/-- `pathlib.Path.iterdir()`: the children of `p` (subdirectories first,
then files, in storage order); raises when `p` is not a directory. -/
def iterdir (p : Path) : PyM (List Path) := fun fs =>
  if fs.isDir p then
    .ok (fs.dirsIn p ++ (fs.files.map Prod.fst).filter (fun q => Path.isChildOf q p)) fs
  else if fs.isFile p then .error .notADirectoryError fs
  else .error .fileNotFoundError fs

/-- `pathlib.Path.rglob("*.exe")`: every entry strictly below `p` whose
final component ends in `.exe`, in storage order. -/
def rglobExe (p : Path) : PyM (List Path) := fun fs =>
  if fs.isDir p then
    .ok ((fs.dirs ++ fs.files.map Prod.fst).filter
      (fun q => Path.isUnder q p && strEndsWith (Path.name q) ".exe")) fs
  else if fs.isFile p then .error .notADirectoryError fs
  else .error .fileNotFoundError fs

/-- `pathlib.Path.replace(target)` on a plain file: atomically renames
`src` to `dst`, replacing an existing file at `dst`.  The program only
renames plain files; renaming a directory is outside the modelled states
and raises here. -/
def pathReplace (src dst : Path) : PyM Unit := fun fs =>
  match fs.fileAt src with
  | none => if fs.isDir src then .error .isADirectoryError fs
            else .error .fileNotFoundError fs
  | some c =>
    if fs.isDir dst then .error .isADirectoryError fs
    else if fs.isDir (Path.parent dst) then
      .ok () { fs with
        files := fs.files.filter (fun qc => qc.1 != src && qc.1 != dst) ++ [(dst, c)] }
    else .error .fileNotFoundError fs

/-- `sklearn.model_selection.train_test_split` called with its defaults
(`test_size = None`, hence 0.25, and `shuffle = True`); the caller passes
no random_state, so the shuffle permutation is fresh randomness, taken
here as the explicit parameter `perm` (a permutation of
`List.range xs.length`).  Returns `(train, test)` where `test` is the
first `⌈n/4⌉` shuffled elements and `train` the remaining `n - ⌈n/4⌉`;
raises ValueError when either side would be empty. -/
def train_test_split (xs : List Path) (perm : List Nat) :
    Except PyErr (List Path × List Path) :=
  let n := xs.length
  let n_test := (n + 3) / 4
  let n_train := n - n_test
  if n_train == 0 || n == 0 then
    .error (.valueError "the resulting train set will be empty")
  else
    let shuffled := perm.filterMap (fun i => xs[i]?)
    .ok (shuffled.drop n_test, shuffled.take n_test)

/-! `hashlib.sha224`, implemented from FIPS 180-4 over byte lists. -/

namespace SHA224

/-- Reduction to a 32-bit word. -/
def w32 (x : Nat) : Nat := x % 2 ^ 32

/-- Right rotation of a 32-bit word. -/
def rotr (n x : Nat) : Nat := w32 ((x >>> n) ||| (x <<< (32 - n)))

/-- Bitwise complement of a 32-bit word. -/
def bnot (x : Nat) : Nat := w32 (x ^^^ (2 ^ 32 - 1))

def ch (e f g : Nat) : Nat := w32 ((e &&& f) ^^^ (bnot e &&& g))

def maj (a b c : Nat) : Nat := w32 ((a &&& b) ^^^ (a &&& c) ^^^ (b &&& c))

def bsig0 (x : Nat) : Nat := w32 (rotr 2 x ^^^ rotr 13 x ^^^ rotr 22 x)

def bsig1 (x : Nat) : Nat := w32 (rotr 6 x ^^^ rotr 11 x ^^^ rotr 25 x)

def ssig0 (x : Nat) : Nat := w32 (rotr 7 x ^^^ rotr 18 x ^^^ (x >>> 3))

def ssig1 (x : Nat) : Nat := w32 (rotr 17 x ^^^ rotr 19 x ^^^ (x >>> 10))

/-- The 64 SHA-256 round constants of FIPS 180-4, written in decimal. -/
def K : List Nat :=
  [1116352408, 1899447441, 3049323471, 3921009573,
   961987163, 1508970993, 2453635748, 2870763221,
   3624381080, 310598401, 607225278, 1426881987,
   1925078388, 2162078206, 2614888103, 3248222580,
   3835390401, 4022224774, 264347078, 604807628,
   770255983, 1249150122, 1555081692, 1996064986,
   2554220882, 2821834349, 2952996808, 3210313671,
   3336571891, 3584528711, 113926993, 338241895,
   666307205, 773529912, 1294757372, 1396182291,
   1695183700, 1986661051, 2177026350, 2456956037,
   2730485921, 2820302411, 3259730800, 3345764771,
   3516065817, 3600352804, 4094571909, 275423344,
   430227734, 506948616, 659060556, 883997877,
   958139571, 1322822218, 1537002063, 1747873779,
   1955562222, 2024104815, 2227730452, 2361852424,
   2428436474, 2756734187, 3204031479, 3329325298]
/-- The SHA-224 initial hash value of FIPS 180-4, written in decimal. -/
def initH : List Nat :=
  [3238371032, 914150663, 812702999, 4144912697,
   4290775857, 1750603025, 1694076839, 3204075428]

/-- Big-endian byte decomposition of `x` into `n` bytes. -/
def toBytesBE (n x : Nat) : List Nat :=
  (List.range n).map (fun i => x / 2 ^ (8 * (n - 1 - i)) % 256)

/-- Merkle-Damgard padding: append 0x80, zeros to 56 mod 64 bytes, and the
bit length as 8 big-endian bytes. -/
def pad (msg : List Nat) : List Nat :=
  msg ++ [0x80] ++ List.replicate ((119 - msg.length % 64) % 64) 0
      ++ toBytesBE 8 (8 * msg.length)

/-- Big-endian packing of bytes into 32-bit words. -/
def toWords : List Nat → List Nat
  | a :: b :: c :: d :: rest => (a * 2 ^ 24 + b * 2 ^ 16 + c * 2 ^ 8 + d) :: toWords rest
  | _ => []

/-- Grouping a word list into 16-word blocks. -/
def toBlocks (ws : List Nat) : List (List Nat) :=
  (List.range (ws.length / 16)).map (fun i => (ws.drop (16 * i)).take 16)

/-- The 64-entry message schedule of one block. -/
def schedule (block : List Nat) : List Nat :=
  (List.range 64).foldl
    (fun ws t =>
      if t < 16 then ws ++ [block.getD t 0]
      else ws ++ [w32 (ssig1 (ws.getD (t - 2) 0) + ws.getD (t - 7) 0
                        + ssig0 (ws.getD (t - 15) 0) + ws.getD (t - 16) 0)])
    []

/-- One compression round on the working variables `[a, b, c, d, e, f, g, h]`. -/
def round (k w : Nat) (st : List Nat) : List Nat :=
  let a := st.getD 0 0
  let b := st.getD 1 0
  let c := st.getD 2 0
  let d := st.getD 3 0
  let e := st.getD 4 0
  let f := st.getD 5 0
  let g := st.getD 6 0
  let h := st.getD 7 0
  let t1 := w32 (h + bsig1 e + ch e f g + k + w)
  let t2 := w32 (bsig0 a + maj a b c)
  [w32 (t1 + t2), a, b, c, w32 (d + t1), e, f, g]

/-- Compression of one 16-word block into the chaining value. -/
def compress (st block : List Nat) : List Nat :=
  let ws := schedule block
  let out := (List.range 64).foldl (fun s t => round (K.getD t 0) (ws.getD t 0) s) st
  (List.range 8).map (fun i => w32 (st.getD i 0 + out.getD i 0))

/-- SHA-224 of a byte list: the first seven words of the final chaining
value. -/
def sha224Words (msg : List Nat) : List Nat :=
  ((toBlocks (toWords (pad msg))).foldl compress initH).take 7

def hexDigit (n : Nat) : Char :=
  if n < 10 then Char.ofNat (48 + n) else Char.ofNat (87 + n)

/-- Lowercase hex rendering of a 32-bit word. -/
def hexWord (x : Nat) : String :=
  String.mk ((List.range 8).map (fun i => hexDigit (x / 16 ^ (7 - i) % 16)))

/-- UTF-8 encoding of one code point. -/
def utf8Bytes (c : Nat) : List Nat :=
  if c < 0x80 then [c]
  else if c < 0x800 then [0xc0 + c / 64, 0x80 + c % 64]
  else if c < 0x10000 then [0xe0 + c / 4096, 0x80 + c / 64 % 64, 0x80 + c % 64]
  else [0xf0 + c / 262144, 0x80 + c / 4096 % 64, 0x80 + c / 64 % 64, 0x80 + c % 64]

/-- `bytes(s, "utf-8")`. -/
def strBytes (s : String) : List Nat := (s.data.map (fun c => utf8Bytes c.toNat)).flatten

/-- `hashlib.sha224(bytes(s, "utf-8")).hexdigest()`. -/
def sha224hex (s : String) : String := String.join ((sha224Words (strBytes s)).map hexWord)

end SHA224

/-! The dataset manager classes (dataset_manager.py). -/

/-- Module-level `random_state = 0`; defined in the source but never passed
to `train_test_split`, so the splits below draw fresh randomness. -/
def random_state : Nat := 0

/-- Module-level `datasets_path = Path("/home/lk3591/Documents/datasets")`. -/
def datasets_path : Path := ["home", "lk3591", "Documents", "datasets"]

/-- The state `DatasetManager.__init__` builds: the dataset name and the
root / downloads / extracted / processed paths. -/
structure DatasetManager where
  name : String
  root : Path
  downloads_path : Path
  extracted_path : Path
  processed_path : Path
deriving DecidableEq, Repr

/-- `DatasetManager.__init__(name)`. -/
def DatasetManager.init (name : String) : DatasetManager :=
  let root := datasets_path ++ [name]
  { name := name
    root := root
    downloads_path := root ++ ["downloads"]
    extracted_path := root ++ ["extracted"]
    processed_path := root ++ ["processed"] }

/-- `DatasetManager._setup`: mkdir with `exist_ok=True, parents=True` on
the root and the three fixed subdirectories. -/
def DatasetManager.setup (m : DatasetManager) : PyM Unit :=
  [m.root, m.downloads_path, m.extracted_path, m.processed_path].forM
    (fun p => mkdir p true true)

/-- `DatasetManager._clean(remove_download)`: rmtree on extracted and
processed, and on downloads when requested. -/
def DatasetManager.cleanImpl (m : DatasetManager) (remove_download : Bool) : PyM Unit :=
  ([m.extracted_path, m.processed_path]
    ++ if remove_download then [m.downloads_path] else []).forM rmtree

/-- `DatasetManager._process_into_train_test_split`: creates
`processed/train` and `processed/test` (`exist_ok=True`, no parents),
splits the entries of the extracted directory, then iterates over
`zip(train, test)` copying the paired entries into train and test. -/
def DatasetManager.process_into_train_test_split (m : DatasetManager)
    (perm : List Nat) : PyM Unit := do
  mkdir (m.processed_path ++ ["train"]) false true
  mkdir (m.processed_path ++ ["test"]) false true
  let entries ← iterdir m.extracted_path
  match train_test_split entries perm with
  | .error e => PyM.raise e
  | .ok (train, test) =>
      (train.zip test).forM (fun ft => do
        copy2 ft.1 (m.processed_path ++ ["train"])
        copy2 ft.2 (m.processed_path ++ ["test"]))

/-- Base `DatasetManager.clean`: declined. -/
def DatasetManager.clean (m : DatasetManager) : PyM Unit :=
  PyM.raise (.notImplementedError (m.name ++ " cannot be cleaned."))

/-- Base `DatasetManager.download`: declined. -/
def DatasetManager.download (m : DatasetManager) : PyM Unit :=
  PyM.raise (.notImplementedError (m.name ++ " cannot be downloaded."))

/-- Base `DatasetManager.extract`: declined. -/
def DatasetManager.extract (m : DatasetManager) : PyM Unit :=
  PyM.raise (.notImplementedError (m.name ++ " cannot be extracted."))

/-- Base `DatasetManager.process`: declined. -/
def DatasetManager.process (m : DatasetManager) : PyM Unit :=
  PyM.raise (.notImplementedError (m.name ++ " cannot be processed."))

namespace Sorel

/-- `Sorel()`. -/
def mgr : DatasetManager := DatasetManager.init "Sorel"

/-- `Sorel.clean`: `_clean(remove_download=True)`. -/
def clean (m : DatasetManager) : PyM Unit := m.cleanImpl true

/-- `Sorel.download`: runs the external `aws s3 cp` subprocess; its effect
on the filesystem is the parameter `fetch`.  `subprocess.run` is called
without `check=True`, so a failing copy does not raise. -/
def download (fetch : PyM Unit) (_m : DatasetManager) : PyM Unit := fetch

/-- `Sorel.extract`: for each file in downloads, read it, zlib-decompress
(the decompression map on opaque contents is the parameter `decompress`),
and write the result under extracted with the same name.  `tqdm(list(...))`
is an identity wrapper. -/
def extract (decompress : Content → Content) (m : DatasetManager) : PyM Unit := do
  let entries ← iterdir m.downloads_path
  entries.forM (fun f => do
    let data ← readFile f
    writeFile (m.extracted_path ++ [Path.name f]) (decompress data))

/-- `Sorel.process`. -/
def process (perm : List Nat) (m : DatasetManager) : PyM Unit :=
  m.process_into_train_test_split perm

end Sorel

namespace Windows

/-- `Windows()`. -/
def mgr : DatasetManager := DatasetManager.init "Windows"

/-- `Windows.clean`: `super().clean()`, the declined base behavior. -/
def clean (m : DatasetManager) : PyM Unit := DatasetManager.clean m

/-- `Windows.download`: `super().download()`, the declined base behavior. -/
def download (m : DatasetManager) : PyM Unit := DatasetManager.download m

/-- The rename target `Windows.extract` computes for a source file `p`:
`local_path` is the posix form of `p` with the posix form of the extracted
path removed, the filename is the SHA-224 hex digest of `local_path[1:]`;
the digest contains no dot, so `.with_suffix(".exe")` appends `.exe`. -/
def extractTarget (m : DatasetManager) (p : Path) : Path :=
  let local_path := strReplace (Path.asPosix p) (Path.asPosix m.extracted_path) ""
  m.extracted_path ++ [SHA224.sha224hex (strDrop local_path 1) ++ ".exe"]

/-- The renames the loop in `Windows.extract` performs when started on
filesystem `fs`: each `*.exe` under downloads (as enumerated after
`_setup`) paired with its hash-derived target. -/
def renames (m : DatasetManager) (fs : FS) : List (Path × Path) :=
  ((rglobExe m.downloads_path) (((DatasetManager.setup m) fs).finalFS)).valueD []
    |>.map (fun p => (p, extractTarget m p))

/-- `Windows.extract`: `_setup`, rename every `*.exe` under downloads to
its hash target under extracted, then rmtree each remaining entry of
downloads. -/
def extract (m : DatasetManager) : PyM Unit := do
  m.setup
  let exes ← rglobExe m.downloads_path
  exes.forM (fun p => pathReplace p (extractTarget m p))
  let entries ← iterdir m.downloads_path
  entries.forM rmtree

/-- `Windows.process`. -/
def process (perm : List Nat) (m : DatasetManager) : PyM Unit :=
  m.process_into_train_test_split perm

end Windows

namespace VirusShare

/-- `VirusShare(version)`: after the base constructor, the extracted path
is further partitioned by the version string. -/
def mgr (version : String) : DatasetManager :=
  let m := DatasetManager.init "VirusShare"
  { m with extracted_path := m.extracted_path ++ [version] }

/-- `VirusShare.clean`: `_clean(remove_download=False)`. -/
def clean (m : DatasetManager) : PyM Unit := m.cleanImpl false

/-- `VirusShare.extract`: creates the extracted directory
(`exist_ok=True, parents=True`), then raises NotImplementedError; the
zipfile code after the raise is unreachable. -/
def extract (m : DatasetManager) : PyM Unit := do
  mkdir m.extracted_path true true
  PyM.raise (.notImplementedError "FIXME: hangs after 43817 files, when should be 65536 files")

/-- `VirusShare.process`. -/
def process (perm : List Nat) (m : DatasetManager) : PyM Unit :=
  m.process_into_train_test_split perm

end VirusShare

namespace Sleipnir

/-- `Sleipnir()`. -/
def mgr : DatasetManager := DatasetManager.init "SLEIPNIR"

/-- `Sleipnir.clean`: `_clean(remove_download=False)`. -/
def clean (m : DatasetManager) : PyM Unit := m.cleanImpl false

/-- `Sleipnir.download`: declined with its own message. -/
def download (m : DatasetManager) : PyM Unit :=
  PyM.raise (.notImplementedError (m.name ++ " not available for download."))

/-- `Sleipnir.extract`: unimplemented placeholder, bare NotImplementedError. -/
def extract (_m : DatasetManager) : PyM Unit :=
  PyM.raise (.notImplementedError "")

/-- `Sleipnir.process`: creates `processed/{train,test}/{benign,malicious}`
(`exist_ok=True`, no parents), then per category splits the entries of
`extracted/<category>` and copies the `zip(train, test)` pairs into the
category subfolders.  `catPerm` gives the shuffle permutation drawn for
each category. -/
def process (catPerm : String → List Nat) (m : DatasetManager) : PyM Unit := do
  ["train", "test"].forM (fun split => do
    mkdir (m.processed_path ++ [split]) false true
    ["benign", "malicious"].forM (fun category =>
      mkdir (m.processed_path ++ [split, category]) false true))
  ["benign", "malicious"].forM (fun category => do
    let entries ← iterdir (m.extracted_path ++ [category])
    match train_test_split entries (catPerm category) with
    | .error e => PyM.raise e
    | .ok (train, test) =>
        (train.zip test).forM (fun ft => do
          copy2 ft.1 (m.processed_path ++ ["train", category])
          copy2 ft.2 (m.processed_path ++ ["test", category])))

end Sleipnir

/-! The dispatcher (`main`). -/

/-- One lifecycle phase. -/
inductive Phase where
  | clean
  | download
  | extract
  | process
deriving DecidableEq, Repr

/-- One `if flag: manager.op()` step of `main`, extending the list of
phases whose operation has been invoked and completed. -/
def runPhase (flag : Bool) (ph : Phase) (op : PyM Unit) (acc : List Phase) :
    PyM (List Phase) :=
  if flag then do op; pure (acc ++ [ph]) else pure acc

/-- The four flag-guarded invocations of `main`, in their fixed order. -/
def runOps (c d e p : PyM Unit) (clean download extract process : Bool) :
    PyM (List Phase) := do
  let t1 ← runPhase clean .clean c []
  let t2 ← runPhase download .download d t1
  let t3 ← runPhase extract .extract e t2
  runPhase process .process p t3

/-- The names in `name_to_manager_map`. -/
def registryNames : List String := ["SLEIPNIR", "VirusShare", "Sorel", "Windows"]

/-- `main(dataset, clean, download, extract, process, version)`.  External
effects are parameters: `fetch` is the filesystem effect of the aws
subprocess, `decompress` the zlib decompression map, `perm` and `catPerm`
the shuffle permutations `train_test_split` draws.  Every manager
constructor swallows the `version` keyword except VirusShare, whose
constructor appends it to a path: with `version=None` that `Path / None`
raises a TypeError.  Returns the phases invoked, in order. -/
def main (dataset : String) (clean download extract process : Bool)
    (version : Option String) (fetch : PyM Unit) (decompress : Content → Content)
    (perm : List Nat) (catPerm : String → List Nat) : PyM (List Phase) :=
  if dataset = "SLEIPNIR" then
    let m := Sleipnir.mgr
    runOps (Sleipnir.clean m) (Sleipnir.download m) (Sleipnir.extract m)
      (Sleipnir.process catPerm m) clean download extract process
  else if dataset = "VirusShare" then
    match version with
    | none => PyM.raise (.typeError "unsupported operand type for /")
    | some v =>
      let m := VirusShare.mgr v
      runOps (VirusShare.clean m) (DatasetManager.download m) (VirusShare.extract m)
        (VirusShare.process perm m) clean download extract process
  else if dataset = "Sorel" then
    let m := Sorel.mgr
    runOps (Sorel.clean m) (Sorel.download fetch m) (Sorel.extract decompress m)
      (Sorel.process perm m) clean download extract process
  else if dataset = "Windows" then
    let m := Windows.mgr
    runOps (Windows.clean m) (Windows.download m) (Windows.extract m)
      (Windows.process perm m) clean download extract process
  else PyM.raise (.valueError ("Invalid dataset provided: " ++ dataset))

/-! Concrete states used to evaluate the claims. -/

/-- The ten sample filenames of the spec example. -/
def exampleNames : List String :=
  ["a.bin", "b.bin", "c.bin", "d.bin", "e.bin", "f.bin", "g.bin", "h.bin", "i.bin", "j.bin"]

/-- A Sorel layout whose extracted directory holds the ten example files
(contents 0..9, in name order) and whose processed directory exists. -/
def fsTen : FS :=
  { dirs := [Sorel.mgr.extracted_path, Sorel.mgr.processed_path],
    files := exampleNames.enum.map (fun ni => (Sorel.mgr.extracted_path ++ [ni.2], ni.1)) }

/-- The run of `Sorel.process` on `fsTen` with the identity shuffle. -/
def runTen : PyResult Unit := Sorel.process (List.range 10) Sorel.mgr fsTen

/-- A Sorel layout with one downloaded file and no extracted directory. -/
def fsNoExtracted : FS :=
  { dirs := [Sorel.mgr.downloads_path],
    files := [(Sorel.mgr.downloads_path ++ ["sample0"], 5)] }

/-- The run of `VirusShare.extract` for version 00177 on an empty
filesystem. -/
def runVSExtract : PyResult Unit := VirusShare.extract (VirusShare.mgr "00177") ⟨[], []⟩

/-- A Windows layout with a single downloaded exe. -/
def fsW1 : FS :=
  { dirs := [Windows.mgr.root, Windows.mgr.downloads_path],
    files := [(Windows.mgr.downloads_path ++ ["x.exe"], 7)] }

/-- A different Windows layout holding the same exe plus an extra one in a
subdirectory. -/
def fsW2 : FS :=
  { dirs := [Windows.mgr.root, Windows.mgr.downloads_path,
             Windows.mgr.downloads_path ++ ["sub"]],
    files := [(Windows.mgr.downloads_path ++ ["sub", "other.exe"], 9),
              (Windows.mgr.downloads_path ++ ["x.exe"], 7)] }

def xExeSrc : Path := Windows.mgr.downloads_path ++ ["x.exe"]

/-- The hash-derived target of `x.exe`; the digest matches
`hashlib.sha224(b"home/lk3591/Documents/datasets/Windows/downloads/x.exe")`. -/
def xExeTarget : Path :=
  Windows.mgr.extracted_path ++
    ["d01467d28b95d9303f373643f36f04f7defd03ffc4c1dd698203bf8c.exe"]

/-- A Sorel layout with the three subdirectories present and empty. -/
def fsSorelFull : FS :=
  { dirs := [Sorel.mgr.downloads_path, Sorel.mgr.extracted_path, Sorel.mgr.processed_path],
    files := [] }


/-! SHA-224 test vectors (FIPS 180-4), checking the hash implementation. -/

set_option maxRecDepth 100000 in
theorem sha224hex_empty_vector :
    SHA224.sha224hex "" =
      "d14a028c2a3a2bc9476102bb288234c415a2b01f828ea62ac5b3e42f" := by rfl

set_option maxRecDepth 100000 in
theorem sha224hex_abc_vector :
    SHA224.sha224hex "abc" =
      "23097d223405d8228642a477bda255b32aadbce4bda0b3f7e36c9da7" := by rfl

/-! Helper lemmas about the monad and the filesystem primitives. -/

theorem PyM.bind_apply (x : PyM α) (f : α → PyM β) (fs : FS) :
    (x >>= f) fs =
      match x fs with
      | .ok a fs1 => f a fs1
      | .error e fs1 => .error e fs1 := rfl

theorem PyM.pure_apply (a : α) (fs : FS) : (pure a : PyM α) fs = .ok a fs := rfl

theorem PyM.bind_apply_ok {x : PyM α} {f : α → PyM β} {fs fs1 : FS} {a : α}
    (h : x fs = .ok a fs1) : (x >>= f) fs = f a fs1 := by
  rw [PyM.bind_apply, h]

theorem PyM.bind_apply_error {x : PyM α} {f : α → PyM β} {fs fs1 : FS} {e : PyErr}
    (h : x fs = .error e fs1) : (x >>= f) fs = .error e fs1 := by
  rw [PyM.bind_apply, h]

/-- Actions that never change the set of directories. -/
def preservesDirs (act : PyM α) : Prop :=
  ∀ fs, ((act fs).finalFS).dirs = fs.dirs

theorem preservesDirs_pure (a : α) : preservesDirs (pure a : PyM α) := fun _ => rfl

theorem preservesDirs_raise (e : PyErr) : preservesDirs (PyM.raise e : PyM α) :=
  fun _ => rfl

theorem preservesDirs_bind {x : PyM α} {f : α → PyM β}
    (hx : preservesDirs x) (hf : ∀ a, preservesDirs (f a)) :
    preservesDirs (x >>= f) := by
  intro fs
  rw [PyM.bind_apply]
  cases h : x fs with
  | ok a fs1 =>
    have hx1 := hx fs
    rw [h] at hx1
    exact (hf a fs1).trans hx1
  | error e fs1 =>
    have hx1 := hx fs
    rw [h] at hx1
    exact hx1

theorem preservesDirs_forM {l : List α} {f : α → PyM PUnit}
    (hf : ∀ a, preservesDirs (f a)) : preservesDirs (l.forM f) := by
  induction l with
  | nil => exact fun _ => rfl
  | cons a as ih =>
    rw [List.forM_cons']
    exact preservesDirs_bind (hf a) (fun _ => ih)

theorem preservesDirs_readFile (p : Path) : preservesDirs (readFile p) := by
  intro fs
  unfold readFile
  cases fs.fileAt p with
  | none =>
    split
    · rfl
    · split <;> rfl
  | some c => rfl

theorem preservesDirs_writeFile (p : Path) (c : Content) :
    preservesDirs (writeFile p c) := by
  intro fs
  unfold writeFile
  split
  · rfl
  · split <;> rfl

theorem preservesDirs_iterdir (p : Path) : preservesDirs (iterdir p) := by
  intro fs
  unfold iterdir
  split
  · rfl
  · split <;> rfl

/-- A successful mkdir leaves a directory at its target. -/
theorem mkdir_ok_isDir {p : Path} {parents exist_ok : Bool} {fs fs1 : FS} {u : Unit}
    (h : mkdir p parents exist_ok fs = .ok u fs1) : fs1.isDir p = true := by
  have haddDir : ∀ (g : FS), (g.addDir p).isDir p = true := by
    intro g
    unfold FS.addDir
    split
    · assumption
    · simp [FS.isDir, List.contains_eq_any_beq, List.any_append]
  unfold mkdir at h
  split at h
  · cases h
  · split at h
    · split at h
      · cases h
        assumption
      · cases h
    · split at h
      · split at h
        · cases h
        · cases h
          exact haddDir _
      · split at h
        · cases h
          exact haddDir _
        · split at h <;> cases h


/-! Helper lemmas about rmtree, used for the clean claims. -/

theorem contains_eq_false_iff {l : List Path} {a : Path} :
    l.contains a = false ↔ a ∉ l := by
  rw [← Bool.not_eq_true, not_iff_not]
  exact List.elem_iff

theorem isPrefixOf_self (p : Path) : p.isPrefixOf p = true :=
  List.isPrefixOf_iff_prefix.mpr (List.prefix_refl p)

/-- A successful rmtree returns exactly the prefix-filtered filesystem. -/
theorem rmtree_ok_shape {p : Path} {fs fs1 : FS} {u : Unit}
    (h : rmtree p fs = .ok u fs1) :
    fs1 = { dirs := fs.dirs.filter (fun q => ! p.isPrefixOf q),
            files := fs.files.filter (fun qc => ! p.isPrefixOf qc.1) } := by
  unfold rmtree at h
  split at h
  · cases h
  · split at h
    · cases h
      rfl
    · cases h

/-- After a successful rmtree, the removed directory no longer exists. -/
theorem rmtree_ok_not_exists {p : Path} {fs fs1 : FS} {u : Unit}
    (hp : (p == ([] : Path)) = false) (h : rmtree p fs = .ok u fs1) :
    fs1.existsPath p = false := by
  rw [rmtree_ok_shape h]
  simp only [FS.existsPath, FS.isDir, FS.isFile, FS.fileAt, Bool.or_eq_false_iff]
  refine ⟨⟨hp, ?_⟩, ?_⟩
  · rw [contains_eq_false_iff]
    intro hmem
    have := (List.mem_filter.mp hmem).2
    rw [isPrefixOf_self] at this
    cases this
  · have hnone : (fs.files.filter (fun qc => ! p.isPrefixOf qc.1)).find?
        (fun qc => qc.1 == p) = none := by
      rw [List.find?_eq_none]
      intro x hx hbeq
      have hpref := (List.mem_filter.mp hx).2
      have hx1 : x.1 = p := by
        simpa using hbeq
      rw [hx1, isPrefixOf_self] at hpref
      cases hpref
    simp [hnone]

/-- rmtree never brings a path into existence. -/
theorem rmtree_pres_absent {p q : Path} {fs fs1 : FS} {u : Unit}
    (hq : fs.existsPath q = false) (h : rmtree p fs = .ok u fs1) :
    fs1.existsPath q = false := by
  rw [rmtree_ok_shape h]
  rw [FS.existsPath, Bool.or_eq_false_iff] at hq
  obtain ⟨hd, hf⟩ := hq
  rw [FS.isDir, Bool.or_eq_false_iff] at hd
  obtain ⟨h0, hc⟩ := hd
  simp only [FS.existsPath, FS.isDir, FS.isFile, FS.fileAt, Bool.or_eq_false_iff]
  refine ⟨⟨h0, ?_⟩, ?_⟩
  · rw [contains_eq_false_iff]
    intro hmem
    exact (contains_eq_false_iff.mp hc) (List.mem_filter.mp hmem).1
  · rw [FS.isFile] at hf
    have hnone0 : fs.files.find? (fun qc => qc.1 == q) = none := by
      cases hfind : fs.files.find? (fun qc => qc.1 == q) with
      | none => rfl
      | some x =>
        rw [FS.fileAt, hfind] at hf
        cases hf
    have hnone : (fs.files.filter (fun qc => ! p.isPrefixOf qc.1)).find?
        (fun qc => qc.1 == q) = none := by
      rw [List.find?_eq_none] at hnone0 ⊢
      intro x hx
      exact hnone0 x (List.mem_of_mem_filter hx)
    simp [hnone]

/-- rmtree on an absent path raises FileNotFoundError. -/
theorem rmtree_absent_error {p : Path} {fs : FS} (hq : fs.existsPath p = false) :
    rmtree p fs = .error .fileNotFoundError fs := by
  rw [FS.existsPath, Bool.or_eq_false_iff] at hq
  obtain ⟨hd, hf⟩ := hq
  rw [FS.isDir, Bool.or_eq_false_iff] at hd
  unfold rmtree
  rw [hf, hd.2]
  simp

/-- A successful rmtree loop preserves the absence of any path. -/
theorem forM_rmtree_pres_absent {ps : List Path} {fs fsF : FS} {u : PUnit}
    (h : ps.forM rmtree fs = .ok u fsF) {q : Path}
    (hq : fs.existsPath q = false) : fsF.existsPath q = false := by
  induction ps generalizing fs with
  | nil =>
    cases h
    exact hq
  | cons a as ih =>
    rw [List.forM_cons', PyM.bind_apply] at h
    cases hr : rmtree a fs with
    | error e fs1 =>
      rw [hr] at h
      cases h
    | ok u1 fs1 =>
      rw [hr] at h
      exact ih h (rmtree_pres_absent hq hr)

/-- A successful rmtree loop leaves every listed nonempty path absent. -/
theorem forM_rmtree_removes {ps : List Path} {fs fsF : FS} {u : PUnit}
    (h : ps.forM rmtree fs = .ok u fsF) :
    ∀ p ∈ ps, (p == ([] : Path)) = false → fsF.existsPath p = false := by
  induction ps generalizing fs with
  | nil => intro p hp; cases hp
  | cons a as ih =>
    rw [List.forM_cons', PyM.bind_apply] at h
    intro p hp h0
    cases hr : rmtree a fs with
    | error e fs1 =>
      rw [hr] at h
      cases h
    | ok u1 fs1 =>
      rw [hr] at h
      rcases List.mem_cons.mp hp with rfl | hmem
      · exact forM_rmtree_pres_absent h (rmtree_ok_not_exists h0 hr)
      · exact ih h p hmem h0

/-- A rmtree loop over a list containing an absent path fails. -/
theorem forM_rmtree_absent_fails {ps : List Path} {fs : FS} {q : Path}
    (hmem : q ∈ ps) (hq : fs.existsPath q = false) :
    (ps.forM rmtree fs).isOk = false := by
  induction ps generalizing fs with
  | nil => cases hmem
  | cons a as ih =>
    rw [List.forM_cons', PyM.bind_apply]
    rcases List.mem_cons.mp hmem with rfl | hmem2
    · rw [rmtree_absent_error hq]
      rfl
    · cases hr : rmtree a fs with
      | error e fs1 => rfl
      | ok u1 fs1 => exact ih hmem2 (rmtree_pres_absent hq hr)


/-! Helper lemmas for the frame effect of process: it touches only the
processed subtree. -/

/-- The two filesystems agree at every path outside the subtree of `base`. -/
def agreesOutside (base : Path) (fs1 fs2 : FS) : Prop :=
  ∀ q : Path, base.isPrefixOf q = false →
    fs2.fileAt q = fs1.fileAt q ∧ fs2.dirs.contains q = fs1.dirs.contains q

/-- The action changes nothing outside the subtree of `base`, whether it
succeeds or raises. -/
def onlyTouches (act : PyM α) (base : Path) : Prop :=
  ∀ fs, agreesOutside base fs ((act fs).finalFS)

theorem PyResult.finalFS_ok (a : α) (fs : FS) : (PyResult.ok a fs).finalFS = fs := rfl

theorem PyResult.finalFS_error {α : Type} (e : PyErr) (fs : FS) :
    (PyResult.error e fs : PyResult α).finalFS = fs := rfl

theorem getFS_invariant : ∀ fs : FS, (PyM.getFS fs).finalFS = fs := fun _ => rfl

theorem agreesOutside_refl (base : Path) (fs : FS) : agreesOutside base fs fs :=
  fun _ _ => ⟨rfl, rfl⟩

theorem agreesOutside_trans {base : Path} {fs1 fs2 fs3 : FS}
    (h12 : agreesOutside base fs1 fs2) (h23 : agreesOutside base fs2 fs3) :
    agreesOutside base fs1 fs3 := by
  intro q hq
  exact ⟨(h23 q hq).1.trans (h12 q hq).1, (h23 q hq).2.trans (h12 q hq).2⟩

theorem onlyTouches_of_invariant {act : PyM α}
    (h : ∀ fs, (act fs).finalFS = fs) (base : Path) : onlyTouches act base := by
  intro fs
  rw [h]
  exact agreesOutside_refl base fs

theorem onlyTouches_pure (a : α) (base : Path) : onlyTouches (pure a : PyM α) base :=
  fun fs => agreesOutside_refl base fs

theorem onlyTouches_raise (e : PyErr) (base : Path) :
    onlyTouches (PyM.raise e : PyM α) base :=
  fun fs => agreesOutside_refl base fs

theorem iterdir_invariant (p : Path) : ∀ fs, ((iterdir p) fs).finalFS = fs := by
  intro fs
  unfold iterdir
  split
  · rfl
  · split <;> rfl

theorem readFile_invariant (p : Path) : ∀ fs, ((readFile p) fs).finalFS = fs := by
  intro fs
  unfold readFile
  cases fs.fileAt p with
  | none =>
    split
    · rfl
    · split <;> rfl
  | some c => rfl

theorem onlyTouches_bind {x : PyM α} {f : α → PyM β} {base : Path}
    (hx : onlyTouches x base) (hf : ∀ a, onlyTouches (f a) base) :
    onlyTouches (x >>= f) base := by
  intro fs
  rw [PyM.bind_apply]
  cases h : x fs with
  | ok a fs1 =>
    have hx1 := hx fs
    rw [h] at hx1
    exact agreesOutside_trans hx1 (hf a fs1)
  | error e fs1 =>
    have hx1 := hx fs
    rw [h] at hx1
    exact hx1

theorem onlyTouches_forM {l : List α} {f : α → PyM PUnit} {base : Path}
    (hf : ∀ a, onlyTouches (f a) base) : onlyTouches (l.forM f) base := by
  induction l with
  | nil => exact onlyTouches_pure _ _
  | cons a as ih =>
    rw [List.forM_cons']
    exact onlyTouches_bind (hf a) (fun _ => ih)

/-- Lookup by key is unchanged by removing the entries of another key and
appending one entry of that key at the end. -/
theorem find?_filter_append_ne {l : List (Path × Content)} {t q : Path} {c : Content}
    (hqt : q ≠ t) :
    ((l.filter (fun qc => qc.1 != t)) ++ [(t, c)]).find? (fun qc => qc.1 == q) =
      l.find? (fun qc => qc.1 == q) := by
  induction l with
  | nil =>
    have hbeq : (t == q) = false := by
      rw [beq_eq_false_iff_ne]
      exact Ne.symm hqt
    simp [List.find?, hbeq]
  | cons x xs ih =>
    by_cases hx : x.1 = t
    · have h1 : (x.1 != t) = false := by simp [hx]
      have h2 : (x.1 == q) = false := by
        simp [hx, beq_eq_false_iff_ne]
        exact Ne.symm hqt
      simp only [List.filter_cons, h1, List.find?, h2]
      exact ih
    · have h1 : (x.1 != t) = true := by simp [hx]
      simp only [List.filter_cons, h1, List.cons_append, List.find?]
      cases hq : (x.1 == q)
      · exact ih
      · rfl

theorem contains_append_singleton_ne {l : List Path} {t q : Path} (hqt : q ≠ t) :
    (l ++ [t]).contains q = l.contains q := by
  rw [Bool.eq_iff_iff]
  constructor
  · intro h
    have hm := List.elem_iff.mp h
    rcases List.mem_append.mp hm with hm1 | hm2
    · exact List.elem_iff.mpr hm1
    · rw [List.mem_singleton] at hm2
      exact absurd hm2 hqt
  · intro h
    exact List.elem_iff.mpr (List.mem_append.mpr (Or.inl (List.elem_iff.mp h)))

theorem onlyTouches_writeFile {t : Path} {base : Path} (c : Content)
    (ht : base.isPrefixOf t = true) : onlyTouches (writeFile t c) base := by
  intro fs
  unfold writeFile
  split
  · exact agreesOutside_refl base fs
  · split
    · intro q hq
      have hqt : q ≠ t := by
        intro he
        rw [he, ht] at hq
        cases hq
      refine ⟨?_, rfl⟩
      simp only [PyResult.finalFS_ok, FS.fileAt]
      rw [find?_filter_append_ne hqt]
    · exact agreesOutside_refl base fs

theorem onlyTouches_mkdir {t base : Path} (exist_ok : Bool)
    (ht : base.isPrefixOf t = true) : onlyTouches (mkdir t false exist_ok) base := by
  intro fs
  unfold mkdir
  rw [if_neg (by simp : ¬ ((false : Bool) = true))]
  split
  · exact agreesOutside_refl base fs
  · split
    · split <;> exact agreesOutside_refl base fs
    · split
      · intro q hq
        have hqt : q ≠ t := by
          intro he
          rw [he, ht] at hq
          cases hq
        simp only [PyResult.finalFS_ok]
        unfold FS.addDir
        split
        · exact ⟨rfl, rfl⟩
        · exact ⟨rfl, contains_append_singleton_ne hqt⟩
      · split <;> exact agreesOutside_refl base fs

theorem isPrefixOf_append_self (base l : List String) :
    base.isPrefixOf (base ++ l) = true :=
  List.isPrefixOf_iff_prefix.mpr (List.prefix_append base l)

theorem isPrefixOf_append_extend {base dst : Path} (l : List String)
    (h : base.isPrefixOf dst = true) : base.isPrefixOf (dst ++ l) = true := by
  rw [List.isPrefixOf_iff_prefix] at h ⊢
  exact h.trans (List.prefix_append dst l)

theorem onlyTouches_copy2 {src dst base : Path}
    (hdst : base.isPrefixOf dst = true) : onlyTouches (copy2 src dst) base := by
  unfold copy2
  apply onlyTouches_bind (onlyTouches_of_invariant (readFile_invariant src) base)
  intro c
  apply onlyTouches_bind (onlyTouches_of_invariant getFS_invariant base)
  intro fsv
  dsimp only
  split
  · exact onlyTouches_writeFile c (isPrefixOf_append_extend _ hdst)
  · exact onlyTouches_writeFile c hdst

/-- The shared train/test processing only touches the processed subtree. -/
theorem processSplit_onlyTouches (m : DatasetManager) (perm : List Nat) :
    onlyTouches (m.process_into_train_test_split perm) m.processed_path := by
  unfold DatasetManager.process_into_train_test_split
  apply onlyTouches_bind (onlyTouches_mkdir true (isPrefixOf_append_self _ _))
  intro _
  apply onlyTouches_bind (onlyTouches_mkdir true (isPrefixOf_append_self _ _))
  intro _
  apply onlyTouches_bind (onlyTouches_of_invariant (iterdir_invariant _) _)
  intro entries
  cases train_test_split entries perm with
  | error e => exact onlyTouches_raise e _
  | ok tt =>
    exact onlyTouches_forM (fun ft =>
      onlyTouches_bind (onlyTouches_copy2 (isPrefixOf_append_self _ _))
        (fun _ => onlyTouches_copy2 (isPrefixOf_append_self _ _)))

/-- Sleipnir.process only touches the processed subtree. -/
theorem sleipnirProcess_onlyTouches (m : DatasetManager) (catPerm : String → List Nat) :
    onlyTouches (Sleipnir.process catPerm m) m.processed_path := by
  unfold Sleipnir.process
  apply onlyTouches_bind
  · apply onlyTouches_forM
    intro split
    apply onlyTouches_bind (onlyTouches_mkdir true (isPrefixOf_append_self _ _))
    intro _
    exact onlyTouches_forM (fun category =>
      onlyTouches_mkdir true (isPrefixOf_append_self _ _))
  intro _
  apply onlyTouches_forM
  intro category
  apply onlyTouches_bind (onlyTouches_of_invariant (iterdir_invariant _) _)
  intro entries
  cases train_test_split entries (catPerm category) with
  | error e => exact onlyTouches_raise e _
  | ok tt =>
    exact onlyTouches_forM (fun ft =>
      onlyTouches_bind (onlyTouches_copy2 (isPrefixOf_append_self _ _))
        (fun _ => onlyTouches_copy2 (isPrefixOf_append_self _ _)))

/-- Two extensions of the same directory by different names cannot both be
prefixes of one path. -/
theorem prefix_disjoint_of_ne {a : List String} {x y : String} (hxy : x ≠ y)
    {q : Path} (h : (a ++ [x]).isPrefixOf q = true) :
    (a ++ [y]).isPrefixOf q = false := by
  cases hc : (a ++ [y]).isPrefixOf q with
  | false => rfl
  | true =>
    exfalso
    rw [List.isPrefixOf_iff_prefix] at h hc
    obtain ⟨t1, e1⟩ := h
    obtain ⟨t2, e2⟩ := hc
    rw [List.append_assoc] at e1 e2
    have hx : q[a.length]? = some x := by
      rw [← e1, List.getElem?_append_right (Nat.le_refl _), Nat.sub_self]
      simp
    have hy : q[a.length]? = some y := by
      rw [← e2, List.getElem?_append_right (Nat.le_refl _), Nat.sub_self]
      simp
    rw [hx] at hy
    exact hxy (Option.some.inj hy)

/-! Claim C1. -/

/-- C1: For every dataset profile that supports process and every extracted
directory containing N sample files, after process() the set of files placed
under processed/train together with the set placed under processed/test
equals the original N files, with no duplicates and no omissions, the two
sets are disjoint, and both are non-empty for N≥4.  The code refutes this:
on the ten files a.bin..j.bin with the identity shuffle, the run succeeds
but places only d,e,f in train and a,b,c in test, omitting g..j, because
the copy loop iterates over zip(train, test) and stops at the shorter test
list. -/
theorem C1_process_drops_files :
    runTen.isOk = true ∧
    runTen.finalFS.filesIn (Sorel.mgr.processed_path ++ ["train"]) =
      ["d.bin", "e.bin", "f.bin"] ∧
    runTen.finalFS.filesIn (Sorel.mgr.processed_path ++ ["test"]) =
      ["a.bin", "b.bin", "c.bin"] ∧
    fsTen.filesIn Sorel.mgr.extracted_path = exampleNames := by
  refine ⟨rfl, rfl, rfl, rfl⟩

/-! Claim C2. -/

/-- C2: For every extracted directory of N sample files, the numbers of
files that process() places into processed/train and processed/test match
the library-default random split ratio of approximately 75% train and 25%
test.  The code refutes this: at N = 10 train_test_split itself returns 7
train and 3 test entries, but the zip-truncated copy loop places 3 files on
each side, a 50/50 placement instead of 7/3. -/
theorem C2_placed_counts_equal_not_ratio :
    (Except.toOption (train_test_split
        ((iterdir Sorel.mgr.extracted_path fsTen).valueD []) (List.range 10))).map
      (fun tt => (tt.1.length, tt.2.length)) = some (7, 3) ∧
    (runTen.finalFS.filesIn (Sorel.mgr.processed_path ++ ["train"])).length = 3 ∧
    (runTen.finalFS.filesIn (Sorel.mgr.processed_path ++ ["test"])).length = 3 := by
  refine ⟨rfl, rfl, rfl⟩

/-! Claim C3. -/

/-- C3 counterexample: Sorel.extract writes into the extracted directory
without ever creating it: started with one downloaded file and no extracted
directory, it raises FileNotFoundError on the first write and creates no
directory at all, so the directory this phase writes into was not created
before the write. -/
theorem C3_counterexample_sorel_extract :
    Sorel.extract id Sorel.mgr fsNoExtracted =
      .error .fileNotFoundError fsNoExtracted ∧
    (Sorel.extract id Sorel.mgr fsNoExtracted).finalFS.isDir
      Sorel.mgr.extracted_path = false := ⟨rfl, rfl⟩

/-- C3 as amended: directory creation in the phases is idempotent — mkdir
with exist_ok on an existing directory (not shadowed by a file) succeeds
and leaves the filesystem unchanged, and every mkdir in the program passes
exist_ok — but not every phase creates the directories it writes into
before writing: Sorel.extract creates no directory whatsoever, writing
into the extracted directory as it finds it. -/
theorem C3_mkdir_idempotent_but_sorel_extract_creates_nothing :
    (∀ (fs : FS) (p : Path) (parents : Bool),
        fs.isDir p = true → fs.isFile p = false →
        mkdir p parents true fs = .ok () fs) ∧
    (∀ (decompress : Content → Content) (m : DatasetManager) (fs : FS),
        ((Sorel.extract decompress m fs).finalFS).dirs = fs.dirs) := by
  constructor
  · intro fs p parents h1 h2
    simp [mkdir, h1, h2]
  · intro decompress m
    unfold Sorel.extract
    exact preservesDirs_bind (preservesDirs_iterdir _)
      (fun entries => preservesDirs_forM
        (fun f => preservesDirs_bind (preservesDirs_readFile _)
          (fun data => preservesDirs_writeFile _ _)))

theorem C3_mkdir_idempotent_witness :
    mkdir ["d0"] false true ⟨[["d0"]], []⟩ = .ok () ⟨[["d0"]], []⟩ ∧
    ((Sorel.extract id Sorel.mgr fsNoExtracted).finalFS).dirs = fsNoExtracted.dirs :=
  ⟨C3_mkdir_idempotent_but_sorel_extract_creates_nothing.1 ⟨[["d0"]], []⟩ ["d0"] false
      (by decide) (by decide),
   C3_mkdir_idempotent_but_sorel_extract_creates_nothing.2 id Sorel.mgr fsNoExtracted⟩

/-! Claim C4. -/

/-- C4 counterexample: VirusShare.extract is declined (it raises
NotImplementedError) yet does not leave the filesystem unchanged: on an
empty filesystem it first creates the whole extracted/version directory
chain and only then raises. -/
theorem C4_counterexample_virusshare_extract :
    runVSExtract.errOf =
      some (.notImplementedError "FIXME: hangs after 43817 files, when should be 65536 files") ∧
    runVSExtract.finalFS ≠ (⟨[], []⟩ : FS) ∧
    runVSExtract.finalFS.isDir (VirusShare.mgr "00177").extracted_path = true := by
  refine ⟨rfl, by decide, rfl⟩

/-- C4 as amended: every operation a profile declines signals
NotImplementedError, and the operations declined through the base class
leave the filesystem unchanged; but VirusShare.extract, the unimplemented
extraction, first creates its extracted directory and only then raises. -/
theorem C4_declined_ops_raise :
    (∀ (m : DatasetManager) (fs : FS),
        DatasetManager.clean m fs =
          .error (.notImplementedError (m.name ++ " cannot be cleaned.")) fs) ∧
    (∀ (m : DatasetManager) (fs : FS),
        DatasetManager.download m fs =
          .error (.notImplementedError (m.name ++ " cannot be downloaded.")) fs) ∧
    (∀ (m : DatasetManager) (fs : FS),
        DatasetManager.extract m fs =
          .error (.notImplementedError (m.name ++ " cannot be extracted.")) fs) ∧
    (∀ (m : DatasetManager) (fs : FS),
        DatasetManager.process m fs =
          .error (.notImplementedError (m.name ++ " cannot be processed.")) fs) ∧
    (∀ (m : DatasetManager) (fs : FS),
        Windows.clean m fs =
          .error (.notImplementedError (m.name ++ " cannot be cleaned.")) fs) ∧
    (∀ (m : DatasetManager) (fs : FS),
        Windows.download m fs =
          .error (.notImplementedError (m.name ++ " cannot be downloaded.")) fs) ∧
    (∀ (m : DatasetManager) (fs : FS),
        Sleipnir.download m fs =
          .error (.notImplementedError (m.name ++ " not available for download.")) fs) ∧
    (∀ (m : DatasetManager) (fs : FS),
        Sleipnir.extract m fs = .error (.notImplementedError "") fs) ∧
    (∀ (v : String) (fs fs1 : FS),
        mkdir ((VirusShare.mgr v).extracted_path) true true fs = .ok () fs1 →
        VirusShare.extract (VirusShare.mgr v) fs =
          .error (.notImplementedError
            "FIXME: hangs after 43817 files, when should be 65536 files") fs1 ∧
        fs1.isDir ((VirusShare.mgr v).extracted_path) = true) := by
  refine ⟨fun m fs => rfl, fun m fs => rfl, fun m fs => rfl, fun m fs => rfl,
    fun m fs => rfl, fun m fs => rfl, fun m fs => rfl, fun m fs => rfl, ?_⟩
  intro v fs fs1 h
  constructor
  · show (mkdir ((VirusShare.mgr v).extracted_path) true true >>=
      fun _ => PyM.raise (.notImplementedError
        "FIXME: hangs after 43817 files, when should be 65536 files") : PyM Unit) fs = _
    rw [PyM.bind_apply, h]
    rfl
  · exact mkdir_ok_isDir h

theorem C4_declined_ops_raise_witness :
    DatasetManager.clean Sorel.mgr ⟨[], []⟩ =
      .error (.notImplementedError "Sorel cannot be cleaned.") ⟨[], []⟩ ∧
    VirusShare.extract (VirusShare.mgr "00177") ⟨[], []⟩ =
      .error (.notImplementedError
        "FIXME: hangs after 43817 files, when should be 65536 files")
        ((mkdir ((VirusShare.mgr "00177").extracted_path) true true ⟨[], []⟩).finalFS) ∧
    ((mkdir ((VirusShare.mgr "00177").extracted_path) true true ⟨[], []⟩).finalFS).isDir
      (VirusShare.mgr "00177").extracted_path = true :=
  ⟨C4_declined_ops_raise.1 Sorel.mgr ⟨[], []⟩,
   (C4_declined_ops_raise.2.2.2.2.2.2.2.2 "00177" ⟨[], []⟩ _ rfl).1,
   (C4_declined_ops_raise.2.2.2.2.2.2.2.2 "00177" ⟨[], []⟩ _ rfl).2⟩

/-! Claim C5. -/

/-- C5: For every dataset profile that supports clean, after clean() the
extracted and processed directories no longer exist, and the downloads
directory no longer exists when its removal was requested.  The profiles
supporting clean are Sorel (which requests removal of downloads),
VirusShare (whose extracted directory is extracted/version) and Sleipnir. -/
theorem C5_clean_removes_directories :
    (∀ (fs fsF : FS) (u : Unit), Sorel.clean Sorel.mgr fs = .ok u fsF →
        fsF.existsPath Sorel.mgr.extracted_path = false ∧
        fsF.existsPath Sorel.mgr.processed_path = false ∧
        fsF.existsPath Sorel.mgr.downloads_path = false) ∧
    (∀ (v : String) (fs fsF : FS) (u : Unit),
        VirusShare.clean (VirusShare.mgr v) fs = .ok u fsF →
        fsF.existsPath (VirusShare.mgr v).extracted_path = false ∧
        fsF.existsPath (VirusShare.mgr v).processed_path = false) ∧
    (∀ (fs fsF : FS) (u : Unit), Sleipnir.clean Sleipnir.mgr fs = .ok u fsF →
        fsF.existsPath Sleipnir.mgr.extracted_path = false ∧
        fsF.existsPath Sleipnir.mgr.processed_path = false) := by
  refine ⟨?_, ?_, ?_⟩
  · intro fs fsF u h
    have h2 : ([Sorel.mgr.extracted_path, Sorel.mgr.processed_path,
        Sorel.mgr.downloads_path] : List Path).forM rmtree fs = .ok u fsF := h
    refine ⟨forM_rmtree_removes h2 _ ?_ rfl, forM_rmtree_removes h2 _ ?_ rfl,
      forM_rmtree_removes h2 _ ?_ rfl⟩
    · exact List.mem_cons_self _ _
    · exact List.mem_cons_of_mem _ (List.mem_cons_self _ _)
    · exact List.mem_cons_of_mem _ (List.mem_cons_of_mem _ (List.mem_cons_self _ _))
  · intro v fs fsF u h
    have h2 : ([(VirusShare.mgr v).extracted_path,
        (VirusShare.mgr v).processed_path] : List Path).forM rmtree fs = .ok u fsF := h
    refine ⟨forM_rmtree_removes h2 _ ?_ rfl, forM_rmtree_removes h2 _ ?_ rfl⟩
    · exact List.mem_cons_self _ _
    · exact List.mem_cons_of_mem _ (List.mem_cons_self _ _)
  · intro fs fsF u h
    have h2 : ([Sleipnir.mgr.extracted_path,
        Sleipnir.mgr.processed_path] : List Path).forM rmtree fs = .ok u fsF := h
    refine ⟨forM_rmtree_removes h2 _ ?_ rfl, forM_rmtree_removes h2 _ ?_ rfl⟩
    · exact List.mem_cons_self _ _
    · exact List.mem_cons_of_mem _ (List.mem_cons_self _ _)

theorem C5_clean_removes_directories_witness :
    ((Sorel.clean Sorel.mgr fsSorelFull).finalFS).existsPath
      Sorel.mgr.extracted_path = false ∧
    ((Sorel.clean Sorel.mgr fsSorelFull).finalFS).existsPath
      Sorel.mgr.processed_path = false ∧
    ((Sorel.clean Sorel.mgr fsSorelFull).finalFS).existsPath
      Sorel.mgr.downloads_path = false :=
  C5_clean_removes_directories.1 fsSorelFull _ () rfl

/-! Claim C6. -/

/-- C6: For every dataset profile that supports clean, invoking clean()
when a directory it is to remove is already absent fails (the error
propagates uncaught) rather than succeeding as a no-op. -/
theorem C6_clean_absent_fails :
    (∀ fs : FS,
        (fs.existsPath Sorel.mgr.extracted_path = false ∨
         fs.existsPath Sorel.mgr.processed_path = false ∨
         fs.existsPath Sorel.mgr.downloads_path = false) →
        (Sorel.clean Sorel.mgr fs).isOk = false) ∧
    (∀ (v : String) (fs : FS),
        (fs.existsPath (VirusShare.mgr v).extracted_path = false ∨
         fs.existsPath (VirusShare.mgr v).processed_path = false) →
        (VirusShare.clean (VirusShare.mgr v) fs).isOk = false) ∧
    (∀ fs : FS,
        (fs.existsPath Sleipnir.mgr.extracted_path = false ∨
         fs.existsPath Sleipnir.mgr.processed_path = false) →
        (Sleipnir.clean Sleipnir.mgr fs).isOk = false) := by
  refine ⟨?_, ?_, ?_⟩
  · intro fs h
    show (([Sorel.mgr.extracted_path, Sorel.mgr.processed_path,
      Sorel.mgr.downloads_path] : List Path).forM rmtree fs).isOk = false
    rcases h with h | h | h
    · exact forM_rmtree_absent_fails (List.mem_cons_self _ _) h
    · exact forM_rmtree_absent_fails
        (List.mem_cons_of_mem _ (List.mem_cons_self _ _)) h
    · exact forM_rmtree_absent_fails
        (List.mem_cons_of_mem _ (List.mem_cons_of_mem _ (List.mem_cons_self _ _))) h
  · intro v fs h
    show ((([(VirusShare.mgr v).extracted_path,
      (VirusShare.mgr v).processed_path]) : List Path).forM rmtree fs).isOk = false
    rcases h with h | h
    · exact forM_rmtree_absent_fails (List.mem_cons_self _ _) h
    · exact forM_rmtree_absent_fails
        (List.mem_cons_of_mem _ (List.mem_cons_self _ _)) h
  · intro fs h
    show (([Sleipnir.mgr.extracted_path,
      Sleipnir.mgr.processed_path] : List Path).forM rmtree fs).isOk = false
    rcases h with h | h
    · exact forM_rmtree_absent_fails (List.mem_cons_self _ _) h
    · exact forM_rmtree_absent_fails
        (List.mem_cons_of_mem _ (List.mem_cons_self _ _)) h

theorem C6_clean_absent_fails_witness :
    (Sorel.clean Sorel.mgr ⟨[], []⟩).isOk = false :=
  C6_clean_absent_fails.1 ⟨[], []⟩ (Or.inl rfl)

/-! Claim C7. -/

/-- C7: For every dataset profile that supports process, process() copies
sample files into processed/train and processed/test without moving them:
every file present in the extracted directory before process() is still
present there, unchanged, afterwards (and no directory under extracted
appears or disappears).  Proved for any outcome of the run: process only
touches the processed subtree, which is disjoint from the extracted
subtree. -/
theorem C7_process_copies_extracted_intact :
    (∀ (perm : List Nat) (fs : FS) (q : Path),
        List.isPrefixOf Sorel.mgr.extracted_path q = true →
        ((Sorel.process perm Sorel.mgr fs).finalFS).fileAt q = fs.fileAt q ∧
        ((Sorel.process perm Sorel.mgr fs).finalFS).dirs.contains q =
          fs.dirs.contains q) ∧
    (∀ (perm : List Nat) (fs : FS) (q : Path),
        List.isPrefixOf Windows.mgr.extracted_path q = true →
        ((Windows.process perm Windows.mgr fs).finalFS).fileAt q = fs.fileAt q ∧
        ((Windows.process perm Windows.mgr fs).finalFS).dirs.contains q =
          fs.dirs.contains q) ∧
    (∀ (v : String) (perm : List Nat) (fs : FS) (q : Path),
        List.isPrefixOf (VirusShare.mgr v).extracted_path q = true →
        ((VirusShare.process perm (VirusShare.mgr v) fs).finalFS).fileAt q =
          fs.fileAt q ∧
        ((VirusShare.process perm (VirusShare.mgr v) fs).finalFS).dirs.contains q =
          fs.dirs.contains q) ∧
    (∀ (catPerm : String → List Nat) (fs : FS) (q : Path),
        List.isPrefixOf Sleipnir.mgr.extracted_path q = true →
        ((Sleipnir.process catPerm Sleipnir.mgr fs).finalFS).fileAt q = fs.fileAt q ∧
        ((Sleipnir.process catPerm Sleipnir.mgr fs).finalFS).dirs.contains q =
          fs.dirs.contains q) := by
  refine ⟨?_, ?_, ?_, ?_⟩
  · intro perm fs q h
    have h2 : ((datasets_path ++ ["Sorel"]) ++ ["extracted"]).isPrefixOf q = true := h
    have h3 : ((datasets_path ++ ["Sorel"]) ++ ["processed"]).isPrefixOf q = false :=
      prefix_disjoint_of_ne (by decide) h2
    exact processSplit_onlyTouches Sorel.mgr perm fs q h3
  · intro perm fs q h
    have h2 : ((datasets_path ++ ["Windows"]) ++ ["extracted"]).isPrefixOf q = true := h
    have h3 : ((datasets_path ++ ["Windows"]) ++ ["processed"]).isPrefixOf q = false :=
      prefix_disjoint_of_ne (by decide) h2
    exact processSplit_onlyTouches Windows.mgr perm fs q h3
  · intro v perm fs q h
    have h2 : (((datasets_path ++ ["VirusShare"]) ++ ["extracted"]) ++ [v]).isPrefixOf
        q = true := h
    have h3 : ((datasets_path ++ ["VirusShare"]) ++ ["extracted"]).isPrefixOf q = true := by
      rw [List.isPrefixOf_iff_prefix] at h2 ⊢
      exact (List.prefix_append _ [v]).trans h2
    have h4 : ((datasets_path ++ ["VirusShare"]) ++ ["processed"]).isPrefixOf q = false :=
      prefix_disjoint_of_ne (by decide) h3
    exact processSplit_onlyTouches (VirusShare.mgr v) perm fs q h4
  · intro catPerm fs q h
    have h2 : ((datasets_path ++ ["SLEIPNIR"]) ++ ["extracted"]).isPrefixOf q = true := h
    have h3 : ((datasets_path ++ ["SLEIPNIR"]) ++ ["processed"]).isPrefixOf q = false :=
      prefix_disjoint_of_ne (by decide) h2
    exact sleipnirProcess_onlyTouches Sleipnir.mgr catPerm fs q h3

theorem C7_process_copies_extracted_intact_witness :
    ((Sorel.process (List.range 10) Sorel.mgr fsTen).finalFS).fileAt
        (Sorel.mgr.extracted_path ++ ["a.bin"]) =
      fsTen.fileAt (Sorel.mgr.extracted_path ++ ["a.bin"]) ∧
    ((Sleipnir.process (fun _ => []) Sleipnir.mgr ⟨[], []⟩).finalFS).fileAt
        (Sleipnir.mgr.extracted_path ++ ["benign", "s0"]) =
      (⟨[], []⟩ : FS).fileAt (Sleipnir.mgr.extracted_path ++ ["benign", "s0"]) :=
  ⟨(C7_process_copies_extracted_intact.1 (List.range 10) fsTen _ (by decide)).1,
   (C7_process_copies_extracted_intact.2.2.2 (fun _ => []) ⟨[], []⟩ _ (by decide)).1⟩

/-! Claim C9. -/

/-- A flag-guarded step that completes extends the trace by exactly its
phase when its flag is set, and not at all otherwise. -/
theorem runPhase_ok {flag : Bool} {ph : Phase} {op : PyM Unit} {acc tr : List Phase}
    {fs fs1 : FS} (h : runPhase flag ph op acc fs = .ok tr fs1) :
    tr = acc ++ if flag then [ph] else [] := by
  unfold runPhase at h
  cases flag with
  | false =>
    rw [if_neg (by simp : ¬ ((false : Bool) = true)), PyM.pure_apply] at h
    cases h
    simp
  | true =>
    rw [if_pos rfl] at h
    cases ho : op fs with
    | error e1 f1 =>
      rw [PyM.bind_apply_error ho] at h
      cases h
    | ok u f1 =>
      rw [PyM.bind_apply_ok ho, PyM.pure_apply] at h
      cases h
      simp

/-- A completed runOps produces exactly the flag-filtered trace in the
fixed order. -/
theorem runOps_ok_trace {c d e p : PyM Unit} {cl dl ex pr : Bool} {fs fsF : FS}
    {tr : List Phase} (h : runOps c d e p cl dl ex pr fs = .ok tr fsF) :
    tr = (if cl then [Phase.clean] else []) ++ (if dl then [Phase.download] else []) ++
         (if ex then [Phase.extract] else []) ++ (if pr then [Phase.process] else []) := by
  unfold runOps at h
  cases h1 : runPhase cl .clean c [] fs with
  | error e1 f1 =>
    rw [PyM.bind_apply_error h1] at h
    cases h
  | ok t1 f1 =>
    rw [PyM.bind_apply_ok h1] at h
    cases h2 : runPhase dl .download d t1 f1 with
    | error e2 f2 =>
      rw [PyM.bind_apply_error h2] at h
      cases h
    | ok t2 f2 =>
      rw [PyM.bind_apply_ok h2] at h
      cases h3 : runPhase ex .extract e t2 f2 with
      | error e3 f3 =>
        rw [PyM.bind_apply_error h3] at h
        cases h
      | ok t3 f3 =>
        rw [PyM.bind_apply_ok h3] at h
        rw [runPhase_ok h, runPhase_ok h3, runPhase_ok h2, runPhase_ok h1]
        simp [List.append_assoc]

/-- C9: For every combination of the four boolean flags, a completed
dispatch has invoked exactly the operations whose flags are set, in the
fixed order clean, then download, then extract, then process (recorded as
the trace of phases whose operation was invoked and returned). -/
theorem C9_dispatch_exact_order :
    ∀ (dataset : String) (cl dl ex pr : Bool) (version : Option String)
      (fetch : PyM Unit) (decompress : Content → Content) (perm : List Nat)
      (catPerm : String → List Nat) (fs fsF : FS) (tr : List Phase),
      main dataset cl dl ex pr version fetch decompress perm catPerm fs = .ok tr fsF →
      tr = (if cl then [Phase.clean] else []) ++ (if dl then [Phase.download] else []) ++
           (if ex then [Phase.extract] else []) ++ (if pr then [Phase.process] else []) := by
  intro dataset cl dl ex pr version fetch decompress perm catPerm fs fsF tr h
  unfold main at h
  split at h
  · exact runOps_ok_trace h
  · split at h
    · split at h
      · cases h
      · exact runOps_ok_trace h
    · split at h
      · exact runOps_ok_trace h
      · split at h
        · exact runOps_ok_trace h
        · cases h

theorem C9_dispatch_exact_order_witness :
    [Phase.clean] =
      (if true then [Phase.clean] else []) ++ (if false then [Phase.download] else []) ++
      (if false then [Phase.extract] else []) ++ (if false then [Phase.process] else []) :=
  C9_dispatch_exact_order "Sorel" true false false false none (pure ()) id []
    (fun _ => []) fsSorelFull
    ((main "Sorel" true false false false none (pure ()) id []
      (fun _ => []) fsSorelFull).finalFS) [Phase.clean] rfl

/-! Claim C8. -/

/-- C8: For the extraction policy that renames samples by a hash of their
path, the output filename is a deterministic function of the input path:
whenever two runs of Windows.extract, started from any two filesystem
states, rename the same source path, they compute the same hash and hence
the same target filename. -/
theorem C8_rename_target_deterministic :
    ∀ (m : DatasetManager) (fs1 fs2 : FS) (p t1 t2 : Path),
      (p, t1) ∈ Windows.renames m fs1 → (p, t2) ∈ Windows.renames m fs2 →
      t1 = t2 := by
  intro m fs1 fs2 p t1 t2 h1 h2
  simp only [Windows.renames, List.mem_map, Prod.mk.injEq] at h1 h2
  obtain ⟨a1, -, rfl, rfl⟩ := h1
  obtain ⟨a2, -, rfl, rfl⟩ := h2
  rfl

set_option maxRecDepth 1000000 in
theorem C8_rename_target_deterministic_witness :
    (xExeSrc, xExeTarget) ∈ Windows.renames Windows.mgr fsW1 ∧
    (xExeSrc, xExeTarget) ∈ Windows.renames Windows.mgr fsW2 ∧
    xExeTarget = xExeTarget :=
  ⟨by decide, by decide,
   C8_rename_target_deterministic Windows.mgr fsW1 fsW2 xExeSrc xExeTarget xExeTarget
     (by decide) (by decide)⟩

/-! Claim C10. -/

/-- C10: For every dataset name not in the fixed registry, the dispatcher
raises a ValueError before constructing any manager or invoking any
operation, leaving the filesystem unchanged. -/
theorem C10_invalid_dataset_valueerror :
    ∀ (dataset : String) (cl dl ex pr : Bool) (version : Option String)
      (fetch : PyM Unit) (decompress : Content → Content) (perm : List Nat)
      (catPerm : String → List Nat) (fs : FS),
      dataset ∉ registryNames →
      main dataset cl dl ex pr version fetch decompress perm catPerm fs =
        .error (.valueError ("Invalid dataset provided: " ++ dataset)) fs := by
  intro dataset cl dl ex pr version fetch decompress perm catPerm fs h
  simp only [registryNames, List.mem_cons, List.not_mem_nil, or_false, not_or] at h
  obtain ⟨h1, h2, h3, h4⟩ := h
  simp [main, h1, h2, h3, h4, PyM.raise]

theorem C10_invalid_dataset_valueerror_witness :
    main "EMBER" false false false false none (pure ()) id [] (fun _ => []) ⟨[], []⟩ =
      .error (.valueError "Invalid dataset provided: EMBER") ⟨[], []⟩ :=
  C10_invalid_dataset_valueerror "EMBER" false false false false none (pure ()) id []
    (fun _ => []) ⟨[], []⟩ (by decide)

end DatasetManagement
